import Mathlib

/-!
Shallow embedding of the `progress` and `spinner` packages of the termui
repository.  Pure state is modelled explicitly: every operation that writes
to the configured output sink returns the new state together with the string
written during the call.  Terminal-width probing (`term.GetSize`) is an
external effect and is passed in as an `Option Int` (`none` models a failed
query).  Wall-clock time is passed in as an `Int` of elapsed nanoseconds
(`time.Now` / `time.Since`).  Go's `int(f)` conversion on a `float64`
truncates toward zero, modelled by `ratTrunc` on `ℚ`.
-/

namespace Termui

/-- Truncation toward zero of a rational number, as Go's `int(f)` conversion
of a `float64` value. -/
def ratTrunc (q : ℚ) : Int := if q < 0 then ⌈q⌉ else ⌊q⌋

/-- The string `s` repeated `n` times, as produced by a Go loop appending
`s` to a `strings.Builder` `n` times (or `strings.Repeat`). -/
def repeatStr (s : String) (n : Nat) : String := String.join (List.replicate n s)

/-- `BarConfig` of the progress package: the `Writer` field is not part of the
pure state (output is returned by each operation instead). -/
structure BarConfig where
  Width : Int
  FilledChar : String
  EmptyChar : String
  ShowPercent : Bool
  ShowETA : Bool
deriving DecidableEq

/-- `Bar` of the progress package.  `startTime` is in nanoseconds; the lock
and the `termSizeCh` channel have no pure content. -/
structure Bar where
  config : BarConfig
  totalWidth : Int
  lastProgress : ℚ
  started : Bool
  stopped : Bool
  startTime : Int
deriving DecidableEq

/-- `Bar.calculateWidth`: `termWidth` is the result of `term.GetSize`
(`none` = the query returned an error). -/
def Bar.calculateWidth (termWidth : Option Int) (b : Bar) : Bar :=
  if b.config.Width > 0 then { b with totalWidth := b.config.Width }
  else
    match termWidth with
    | none => { b with totalWidth := 60 }
    | some width =>
      let reservedSpace : Int :=
        (if b.config.ShowPercent then 5 else 0) + (if b.config.ShowETA then 12 else 0)
      let tw := width - reservedSpace - 2
      { b with totalWidth := if tw < 10 then 10 else tw }

/-- `NewBarWithConfig` (functional options already applied to `config`):
fills in the defaulted characters and computes the initial width. -/
def NewBarWithConfig (config : BarConfig) (termWidth : Option Int) : Bar :=
  let config := { config with
    FilledChar := if config.FilledChar = "" then "#" else config.FilledChar,
    EmptyChar := if config.EmptyChar = "" then " " else config.EmptyChar }
  Bar.calculateWidth termWidth
    { config := config, totalWidth := 0, lastProgress := 0,
      started := false, stopped := false, startTime := 0 }

/-- `Bar.clearLine`: the string written to the sink. -/
def Bar.clearLine (b : Bar) : String :=
  let totalClearWidth := b.totalWidth
    + (if b.config.ShowPercent then 5 else 0)
    + (if b.config.ShowETA then 12 else 0)
  "\r" ++ repeatStr " " (totalClearWidth + 5).toNat

/-- `Bar.Start` at wall-clock time `now` (nanoseconds). -/
def Bar.Start (b : Bar) (now : Int) : Bar × String :=
  if b.started && !b.stopped then (b, "")
  else
    ({ b with started := true, stopped := false, startTime := now, lastProgress := 0 },
     b.clearLine)

/-- `Bar.Stop`. -/
def Bar.Stop (b : Bar) : Bar × String :=
  if b.stopped then (b, "")
  else ({ b with stopped := true }, b.clearLine ++ "\r")

/-- Go's `fmt.Sprintf "%02d"` for the values produced by `calculateETA`. -/
def pad2 (n : Int) : String :=
  if 0 ≤ n ∧ n < 10 then "0" ++ toString n else toString n

/-- Go's `fmt.Sprintf "%3d"` for the percentage values produced by
`SetProgress` (always in `[0, 100]` there). -/
def pad3 (n : Int) : String :=
  if 0 ≤ n ∧ n < 10 then "  " ++ toString n
  else if 0 ≤ n ∧ n < 100 then " " ++ toString n
  else toString n

/-- `Bar.calculateETA` at wall-clock time `now` (nanoseconds); durations are
int64 nanosecond counts in Go, `Minutes`/`Seconds` divide by `6e10` / `1e9`. -/
def Bar.calculateETA (b : Bar) (now : Int) (progress : ℚ) : String :=
  if progress ≤ 0 then "--:--"
  else
    let elapsed : Int := now - b.startTime
    let totalEstimated : Int := ratTrunc ((elapsed : ℚ) / progress)
    let remaining : Int := totalEstimated - elapsed
    let remaining : Int := if remaining < 0 then 0 else remaining
    let minutes : Int := ratTrunc ((remaining : ℚ) / 60000000000)
    let seconds : Int := ratTrunc ((remaining : ℚ) / 1000000000) % 60
    pad2 minutes ++ ":" ++ pad2 seconds

/-- `Bar.SetProgress` at wall-clock time `now`; returns the new state and the
string written to the sink. -/
def Bar.SetProgress (b : Bar) (progress : ℚ) (now : Int) : Bar × String :=
  if !b.started || b.stopped then (b, "")
  else
    let progress := max 0 (min 1 progress)
    let b := { b with lastProgress := progress }
    let filledCount := ratTrunc ((b.totalWidth : ℚ) * progress)
    let emptyCount := b.totalWidth - filledCount
    let bar := "\r"
      ++ repeatStr b.config.FilledChar filledCount.toNat
      ++ repeatStr b.config.EmptyChar emptyCount.toNat
      ++ (if b.config.ShowPercent then " " ++ pad3 (ratTrunc (progress * 100)) ++ "%" else "")
      ++ (if b.config.ShowETA then " ETA: " ++ b.calculateETA now progress else "")
    (b, bar)

/-- `Bar.GetProgress`. -/
def Bar.GetProgress (b : Bar) : ℚ := b.lastProgress

/-- `Bar.Increment`. -/
def Bar.Increment (b : Bar) (delta : ℚ) (now : Int) : Bar × String :=
  b.SetProgress (b.lastProgress + delta) now

/-- The calls the function passed to `Bar.Run` makes through the progress
setter it receives, applied in order; the function interacts with the bar
only through that setter, so its behaviour is the list of values passed. -/
def Bar.applyUpdates (b : Bar) (now : Int) (upds : List ℚ) : Bar × String :=
  upds.foldl (fun (acc : Bar × String) p =>
    let r := acc.1.SetProgress p now
    (r.1, acc.2 ++ r.2)) (b, "")

/-- `Bar.Run`: `Start`, run the function (its setter calls are `upds`), wait
for it on the `WaitGroup`, then the deferred `Stop`. -/
def Bar.Run (b : Bar) (now : Int) (upds : List ℚ) : Bar × String :=
  let s := b.Start now
  let m := s.1.applyUpdates now upds
  let e := m.1.Stop
  (e.1, s.2 ++ m.2 ++ e.2)

/-- `Spinner` of the spinner package.  `frameIndex` is the render loop's
local counter, created at `0` each time `Start` spawns the loop; it is part
of the state here because the loop's behaviour depends on it.  The `doneCh`
channel is non-nil exactly while `running` holds (`Start` sets both,
`Stop` clears both), so one flag models the pair.  `frameDuration` is in
milliseconds. -/
structure Spinner where
  frames : List Char
  frameDuration : Nat
  prefixStr : String
  suffixStr : String
  running : Bool
  frameIndex : Nat
deriving DecidableEq

/-- `FramesLines`, the default frame set. -/
def FramesLines : List Char := ['|', '/', '-', '\\']

/-- `spinner.New` with all functional options already applied: `frames`,
`prefixStr`, `suffixStr` and `frameDuration` are the post-option values. -/
def SpinnerNew (frames : List Char) (frameDuration : Nat)
    (prefixStr suffixStr : String) : Spinner :=
  { frames := frames, frameDuration := frameDuration,
    prefixStr := prefixStr, suffixStr := suffixStr,
    running := false, frameIndex := 0 }

/-- `Spinner.Start`: a no-op while running; otherwise spawns the render loop
with its frame counter at `0`. -/
def Spinner.Start (s : Spinner) : Spinner :=
  if s.running then s else { s with running := true, frameIndex := 0 }

/-- One firing of the render loop's ticker: writes the current frame and
advances the counter.  (For an empty frame list the Go loop would panic on
`frameIndex % 0`; `getD` is only reached under a nonempty-frames
hypothesis in the theorems below.) -/
def Spinner.tick (s : Spinner) : Spinner × String :=
  if s.running then
    let frame := s.frames.getD (s.frameIndex % s.frames.length) ' '
    ({ s with frameIndex := s.frameIndex + 1 },
     "\r" ++ s.prefixStr ++ String.singleton frame ++ s.suffixStr)
  else (s, "")

/-- `Spinner.clearLine` (run by the loop's deferred call as it exits):
widths are Go `len` byte counts. -/
def Spinner.clearLine (s : Spinner) : String :=
  "\r" ++ repeatStr " " (s.prefixStr.utf8ByteSize + s.suffixStr.utf8ByteSize + 1) ++ "\r"

/-- `Spinner.Stop`: a no-op unless running (the `doneCh == nil` test
coincides with `!running`); otherwise the loop's deferred `clearLine`
output is emitted before `Stop` returns from the channel join. -/
def Spinner.Stop (s : Spinner) : Spinner × String :=
  if s.running then ({ s with running := false }, s.clearLine)
  else (s, "")

/-- The outcome of `Spinner.RunWithTimeout`: either the wrapped function's
own result (a fresh `fmt.Errorf` value is never equal to one of those) or
the fresh timeout error built from the timeout duration. -/
inductive SpinError where
  | fromFn (msg : String)
  | timedOut (timeoutMs : Nat)
deriving DecidableEq

/-- `Spinner.RunWithTimeout`: the wrapped function is characterised by the
time `fnTimeMs` at which it completes and the error `fnErr` it returns; the
`select` takes whichever of the function's completion and the timer fires
first (the function on a tie, which in Go is a scheduler choice). -/
def Spinner.RunWithTimeout (s : Spinner) (fnErr : Option String)
    (fnTimeMs timeoutMs : Nat) : Spinner × Option SpinError :=
  let s1 := s.Start
  let result := if fnTimeMs ≤ timeoutMs then fnErr.map SpinError.fromFn
    else some (SpinError.timedOut timeoutMs)
  ((s1.Stop).1, result)

/-- Assignment `m[name] = v` on a Go map modelled as a unique-key
association list: replace the entry if the key is present, append otherwise. -/
def mapInsert {β : Type} (l : List (String × β)) (name : String) (v : β) :
    List (String × β) :=
  if l.any (fun kv => kv.1 == name) then
    l.map (fun kv => if kv.1 == name then (name, v) else kv)
  else l ++ [(name, v)]

/-- Lookup `m[name]` on a Go map modelled as an association list. -/
def mapFind {β : Type} (l : List (String × β)) (name : String) : Option β :=
  (l.find? (fun kv => kv.1 == name)).map (·.2)

/-- `LabeledBar` of the progress package. -/
structure LabeledBar where
  bar : Bar
  label : String
  line : Nat
deriving DecidableEq

/-- `MultiBar`: the `bars` map. -/
structure MultiBar where
  bars : List (String × LabeledBar)
deriving DecidableEq

/-- `NewMultiBar`. -/
def NewMultiBar : MultiBar := { bars := [] }

/-- `MultiBar.Add`: builds a bar from the config and assigns
`line = len(mb.bars)` as read at insertion time. -/
def MultiBar.Add (mb : MultiBar) (name label : String) (config : BarConfig)
    (termWidth : Option Int) : MultiBar :=
  let entry : LabeledBar :=
    { bar := NewBarWithConfig config termWidth, label := label,
      line := mb.bars.length }
  { bars := mapInsert mb.bars name entry }

/-- Lookup in a `MultiBar` (`mb.bars[name]`). -/
def MultiBar.find (mb : MultiBar) (name : String) : Option LabeledBar :=
  mapFind mb.bars name

/-- `LabeledSpinner` of the spinner package. -/
structure LabeledSpinner where
  spinner : Spinner
  label : String
  line : Nat
deriving DecidableEq

/-- `MultiSpinner`: the `spinners` map. -/
structure MultiSpinner where
  spinners : List (String × LabeledSpinner)
deriving DecidableEq

/-- `NewMultiSpinner`. -/
def NewMultiSpinner : MultiSpinner := { spinners := [] }

/-- `MultiSpinner.Add`: appends a `WithPrefix (label ++ " ")` option after
the caller's options, so the constructed spinner's `prefixStr` is
`label ++ " "`; assigns `line = len(ms.spinners)` at insertion time. -/
def MultiSpinner.Add (ms : MultiSpinner) (name label : String)
    (frames : List Char) (frameDuration : Nat) (suffixStr : String) :
    MultiSpinner :=
  let spinner := SpinnerNew frames frameDuration (label ++ " ") suffixStr
  let entry : LabeledSpinner :=
    { spinner := spinner, label := label, line := ms.spinners.length }
  { spinners := mapInsert ms.spinners name entry }

/-- Lookup in a `MultiSpinner` (`ms.spinners[name]`). -/
def MultiSpinner.find (ms : MultiSpinner) (name : String) : Option LabeledSpinner :=
  mapFind ms.spinners name

/-!
The repository also carries an earlier implementation of each package:
`src/progress/progress.go` and `src/spinner/spinner.go`.  The `V0`
namespace embeds those, with the same conventions as above.
-/

namespace V0

/-- `Bar` of `src/progress/progress.go`: no config, no lifecycle flags, no
clamping (the `termSizeCh` channel has no pure content). -/
structure Bar where
  totalWidth : Int
  lastPosition : ℚ
deriving DecidableEq

/-- `Bar.calculateWidth` of `src/progress/progress.go`: the `term.GetSize`
error is discarded (`width, _, _ :=`), so a failed query contributes Go's
zero value for `width`, and `totalWidth = width - 1` with no fallback,
no reserved space and no floor. -/
def Bar.calculateWidth (termWidth : Option Int) (b : Bar) : Bar :=
  { b with totalWidth := termWidth.getD 0 - 1 }

/-- `NewBar` of `src/progress/progress.go`. -/
def NewBar (termWidth : Option Int) : Bar :=
  Bar.calculateWidth termWidth { totalWidth := 0, lastPosition := 0 }

/-- `Bar.clearLine` of `src/progress/progress.go`. -/
def Bar.clearLine (b : Bar) : String :=
  "\r" ++ repeatStr " " b.totalWidth.toNat

/-- `Bar.Start` of `src/progress/progress.go`: clears the line and zeroes
the position (the resize goroutine it spawns is not part of the pure
state). -/
def Bar.Start (b : Bar) : Bar × String :=
  ({ b with lastPosition := 0 }, b.clearLine)

/-- `Bar.Stop` of `src/progress/progress.go`: unconditional clear plus a
bare carriage return; there are no lifecycle flags to change. -/
def Bar.Stop (b : Bar) : Bar × String :=
  (b, b.clearLine ++ "\r")

/-- `Bar.SetProgress` of `src/progress/progress.go`: no started/stopped
guard and no clamping. -/
def Bar.SetProgress (b : Bar) (progress : ℚ) : Bar × String :=
  let b := { b with lastPosition := progress }
  let filledCount := ratTrunc ((b.totalWidth : ℚ) * progress)
  let emptyCount := b.totalWidth - filledCount
  (b, "\r" ++ repeatStr "#" filledCount.toNat ++ repeatStr " " emptyCount.toNat)

/-- The setter calls of the function given to `V0.Bar.Run`, applied in
order. -/
def Bar.applyUpdates (b : Bar) (upds : List ℚ) : Bar × String :=
  upds.foldl (fun (acc : Bar × String) p =>
    let r := acc.1.SetProgress p
    (r.1, acc.2 ++ r.2)) (b, "")

/-- `Bar.Run` of `src/progress/progress.go`: `Start`, spawn the function,
then `Stop` — with no `wg.Wait()` before the `Stop`.  Nothing orders the
function's setter calls against `Stop`, so the scheduler's choice `k` of
how many of them land before `Stop` is a parameter of the model; every
`k` is a legal schedule, and the calls scheduled after `Stop` still
render, because this `SetProgress` has no stopped guard. -/
def Bar.Run (b : Bar) (upds : List ℚ) (k : Nat) : Bar × String :=
  let s := b.Start
  let before := s.1.applyUpdates (upds.take k)
  let e := before.1.Stop
  let after := e.1.applyUpdates (upds.drop k)
  (after.1, s.2 ++ before.2 ++ e.2 ++ after.2)

/-- `Spinner` of `src/spinner/spinner.go`.  `doneChNil` models
`doneCh == nil` — true only before the first `Start`, because this
version's `Stop` never resets `doneCh` to nil; `loopRunning` models the
render goroutine being alive; `i` is that goroutine's counter. -/
structure Spinner where
  frames : List Char
  frameDuration : Nat
  doneChNil : Bool
  loopRunning : Bool
  i : Nat
deriving DecidableEq

/-- `spinner.New` of `src/spinner/spinner.go` with options applied. -/
def New (frames : List Char) (frameDuration : Nat) : Spinner :=
  { frames := frames, frameDuration := frameDuration,
    doneChNil := true, loopRunning := false, i := 0 }

/-- `Spinner.Start` of `src/spinner/spinner.go`: returns early whenever
`doneCh != nil` — which, after any earlier `Start`, is forever, since this
`Stop` never nils it — and otherwise spawns the loop with `i = 0`. -/
def Spinner.Start (s : Spinner) : Spinner :=
  if s.doneChNil then
    { s with doneChNil := false, loopRunning := true, i := 0 }
  else s

/-- One ticker firing of the `src/spinner/spinner.go` loop: `i` is
incremented *before* the `select`, so the `n`-th tick renders
`frames[n % len]` with `n` starting at 1 — the first frame shown is
`frames[1 % len]`, not `frames[0]`. -/
def Spinner.tick (s : Spinner) : Spinner × String :=
  if s.loopRunning then
    let j := s.i + 1
    ({ s with i := j },
     "\r" ++ String.singleton (s.frames.getD (j % s.frames.length) ' '))
  else (s, "")

/-- `Spinner.Stop` of `src/spinner/spinner.go`: closes `doneCh` — the loop
prints a bare carriage return and exits — but leaves `doneCh` non-nil. -/
def Spinner.Stop (s : Spinner) : Spinner × String :=
  if s.doneChNil then (s, "")
  else ({ s with loopRunning := false }, "\r")

end V0

/-! Concrete instances used by witnesses and counterexamples. -/

/-- A concrete config: fixed width 10, no percentage, no ETA. -/
def cfgPlain : BarConfig :=
  { Width := 10, FilledChar := "#", EmptyChar := " ",
    ShowPercent := false, ShowETA := false }

/-- A concrete idle bar built from `cfgPlain`. -/
def barIdle : Bar := NewBarWithConfig cfgPlain none

/-- The bar `barIdle` after `Start` at time 0. -/
def barRunning : Bar := (barIdle.Start 0).1

/-- Claim C1: for a running Bar, `SetProgress p` stores and then reads back
`max 0 (min 1 p)`, and the stored value lies in `[0, 1]`, for every
caller-supplied `p`, including `p < 0` and `p > 1`. -/
theorem setProgress_clamps (b : Bar) (p : ℚ) (now : Int)
    (hs : b.started = true) (hn : b.stopped = false) :
    (b.SetProgress p now).1.lastProgress = max 0 (min 1 p) ∧
    (b.SetProgress p now).1.GetProgress = max 0 (min 1 p) ∧
    0 ≤ (b.SetProgress p now).1.lastProgress ∧
    (b.SetProgress p now).1.lastProgress ≤ 1 := by
  have h1 : (b.SetProgress p now).1.lastProgress = max 0 (min 1 p) := by
    simp [Bar.SetProgress, hs, hn]
  refine ⟨h1, h1, ?_, ?_⟩
  · rw [h1]; exact le_max_left _ _
  · rw [h1]; exact max_le zero_le_one (min_le_left _ _)

/-- Witness for C1 at `p = 3/2` on a concrete running bar. -/
theorem setProgress_clamps_witness :
    (barRunning.SetProgress (3/2) 0).1.GetProgress = max 0 (min 1 (3/2 : ℚ)) :=
  (setProgress_clamps barRunning (3/2) 0 (by decide) (by decide)).2.1

/-- Claim C9: on a Bar that is not started, or is stopped, `SetProgress` is a
complete no-op: the state (hence `lastProgress` and `GetProgress`) is
unchanged and nothing is written to the sink. -/
theorem setProgress_noop_when_not_running (b : Bar) (p : ℚ) (now : Int)
    (h : b.started = false ∨ b.stopped = true) :
    b.SetProgress p now = (b, "") ∧
    (b.SetProgress p now).1.GetProgress = b.lastProgress := by
  have h1 : b.SetProgress p now = (b, "") := by
    rcases h with h | h <;> simp [Bar.SetProgress, h]
  exact ⟨h1, by rw [h1]; rfl⟩

/-- Witness for C9: a never-started concrete bar ignores `SetProgress 1/2`. -/
theorem setProgress_noop_witness :
    barIdle.SetProgress (1/2) 0 = (barIdle, "") :=
  (setProgress_noop_when_not_running barIdle (1/2) 0 (Or.inl (by decide))).1

/-- Claim C4, counterexample: `Bar.Stop` on a bar that was never started is not a
no-op — the bar does transition to stopped and a line-clear is written. -/
theorem stop_on_idle_bar_changes_state :
    barIdle.started = false ∧ barIdle.stopped = false ∧
    (barIdle.Stop).1.stopped = true ∧ (barIdle.Stop).2 ≠ "" := by
  refine ⟨by decide, by decide, by decide, ?_⟩
  decide

/-- Claim C4 as amended: `Spinner.Stop` on a non-running spinner (never started or
already stopped) is a no-op; `Bar.Stop` is a no-op only when the bar is
already stopped — on a never-started bar it still sets `stopped` and writes
a line-clear; a second `Stop` after a `Stop` changes nothing for either. -/
theorem stop_redundancy_amended :
    (∀ s : Spinner, s.running = false → s.Stop = (s, "")) ∧
    (∀ b : Bar, b.stopped = true → b.Stop = (b, "")) ∧
    (∀ b : Bar, b.stopped = false →
      (b.Stop).1.stopped = true ∧ (b.Stop).2 = b.clearLine ++ "\r") ∧
    (∀ s : Spinner, ((s.Stop).1.Stop) = ((s.Stop).1, "")) ∧
    (∀ b : Bar, ((b.Stop).1.Stop) = ((b.Stop).1, "")) := by
  refine ⟨?_, ?_, ?_, ?_, ?_⟩
  · intro s h; simp [Spinner.Stop, h]
  · intro b h; simp [Bar.Stop, h]
  · intro b h; simp [Bar.Stop, h]
  · intro s
    by_cases h : s.running = true
    · simp [Spinner.Stop, h]
    · simp only [Bool.not_eq_true] at h
      simp [Spinner.Stop, h]
  · intro b
    by_cases h : b.stopped = true
    · simp [Bar.Stop, h]
    · simp only [Bool.not_eq_true] at h
      simp [Bar.Stop, h]

/-- Witness for the amended C4: a concrete never-started spinner ignores
`Stop`, and a concrete bar ignores a second `Stop`. -/
theorem stop_redundancy_amended_witness :
    (SpinnerNew FramesLines 100 "" "").Stop = (SpinnerNew FramesLines 100 "" "", "") ∧
    ((barIdle.Stop).1.Stop) = ((barIdle.Stop).1, "") :=
  ⟨stop_redundancy_amended.1 (SpinnerNew FramesLines 100 "" "") (by decide),
   stop_redundancy_amended.2.2.2.2 barIdle⟩

/-- A concrete auto-width config showing only the percentage suffix. -/
def cfgAutoPct : BarConfig :=
  { Width := 0, FilledChar := "#", EmptyChar := " ",
    ShowPercent := true, ShowETA := false }

/-- Claim C7, counterexample: in part_000, with a 50-column terminal and
only the percentage suffix enabled, the usable track width is `43`, not the
`50 - 5 = 45` that "terminal width minus reserved space for enabled
percentage and ETA suffixes" prescribes — the code subtracts a further
2-cell margin; and in `src/progress/progress.go`, a failed width query
yields `totalWidth = -1` (no fixed fallback is substituted) and a 5-column
terminal yields `4`, below the claimed floor of 10. -/
theorem calculateWidth_counterexample :
    (NewBarWithConfig cfgAutoPct (some 50)).totalWidth = 43 ∧
    (43 : Int) ≠ 50 - 5 ∧
    (V0.NewBar none).totalWidth = -1 ∧
    (V0.NewBar (some 5)).totalWidth = 4 ∧
    ¬ (10 ≤ (V0.NewBar (some 5)).totalWidth) := by
  refine ⟨by decide, by decide, by decide, by decide, by decide⟩

/-- Claim C7 as amended: in part_000, when the width is auto-detected and
the terminal query fails, the width falls back to the fixed value `60`;
when it succeeds, the usable track width is the terminal width minus the
reserved space for the enabled percentage (5) and ETA (12) suffixes minus a
fixed 2-cell margin, never below the floor of 10 cells.  In
`src/progress/progress.go`, the query error is discarded and the width is
always the queried value (Go's zero value `0` on failure) minus 1, with no
fallback, no reservation and no floor. -/
theorem calculateWidth_amended (cfg : BarConfig) (w : Int) (tw : Option Int)
    (hw : cfg.Width ≤ 0) :
    (NewBarWithConfig cfg none).totalWidth = 60 ∧
    (NewBarWithConfig cfg (some w)).totalWidth =
      max 10 (w - (if cfg.ShowPercent then 5 else 0)
        - (if cfg.ShowETA then 12 else 0) - 2) ∧
    10 ≤ (NewBarWithConfig cfg (some w)).totalWidth ∧
    (V0.NewBar tw).totalWidth = tw.getD 0 - 1 := by
  have hnot : ¬ (cfg.Width > 0) := not_lt.mpr hw
  refine ⟨?_, ?_, ?_, rfl⟩
  · simp [NewBarWithConfig, Bar.calculateWidth, hnot]
  · simp only [NewBarWithConfig, Bar.calculateWidth, hnot, if_false]
    split_ifs <;> simp <;> omega
  · simp only [NewBarWithConfig, Bar.calculateWidth, hnot, if_false]
    split_ifs <;> simp <;> omega

/-- Witness for the amended C7 on the concrete auto-width config, a
50-column terminal, and the earlier implementation with a failed query. -/
theorem calculateWidth_amended_witness :
    (NewBarWithConfig cfgAutoPct none).totalWidth = 60 ∧
    (NewBarWithConfig cfgAutoPct (some 50)).totalWidth =
      max 10 (50 - (if cfgAutoPct.ShowPercent then 5 else 0)
        - (if cfgAutoPct.ShowETA then 12 else 0) - 2) ∧
    (V0.NewBar none).totalWidth = (none : Option Int).getD 0 - 1 :=
  ⟨(calculateWidth_amended cfgAutoPct 50 none (by decide)).1,
   (calculateWidth_amended cfgAutoPct 50 none (by decide)).2.1,
   (calculateWidth_amended cfgAutoPct 50 none (by decide)).2.2.2⟩

/-- After `Spinner.Stop` the state is the old state with `running` cleared
(whether or not it was running). -/
lemma spinner_stop_state (s : Spinner) : (s.Stop).1 = { s with running := false } := by
  by_cases hr : s.running = true
  · simp [Spinner.Stop, hr]
  · simp only [Bool.not_eq_true] at hr
    simp [Spinner.Stop, hr]
    cases s
    simp_all

/-- After `Bar.Stop` the state is the old state with `stopped` set (whether
or not it was already stopped). -/
lemma bar_stop_state (b : Bar) : (b.Stop).1 = { b with stopped := true } := by
  by_cases hs : b.stopped = true
  · simp [Bar.Stop, hs]
    cases b
    simp_all
  · simp only [Bool.not_eq_true] at hs
    simp [Bar.Stop, hs]

/-- A concrete earlier-implementation spinner after its first `Start`. -/
def v0Started : V0.Spinner := (V0.New FramesLines 100).Start

/-- Claim C5, counterexample: in `src/spinner/spinner.go`, `Stop` leaves
`doneCh` non-nil, so `Start` after `Stop` is a no-op — the frame counter is
not re-zeroed and the next tick renders nothing, let alone the first frame;
and even a fresh first `Start` renders `frames[1]` (`'/'`), not the first
frame (`'|'`), because the loop increments its counter before rendering. -/
theorem restart_v0_counterexample :
    ((v0Started.Stop).1.Start) = (v0Started.Stop).1 ∧
    (((v0Started.Stop).1.Start).tick).2 = "" ∧
    (v0Started.tick).2 = "\r" ++ String.singleton '/' ∧
    FramesLines.headD ' ' = '|' ∧
    ("\r" ++ String.singleton '/') ≠ ("\r" ++ String.singleton '|') := by
  refine ⟨by decide, by decide, by decide, by decide, by decide⟩

/-- Claim C5 as amended: in part_001 and part_000, after `Stop` then
`Start` the spinner's frame counter is recreated at 0 — the next tick
renders the first frame of its sequence — and the bar's progress resets to
0.  In `src/spinner/spinner.go`, `Stop` never nils `doneCh`, so a `Start`
after `Stop` is a no-op (nothing is re-zeroed and nothing renders again),
and even a first `Start` shows `frames[1 % len]` first, because the loop
increments its counter before rendering. -/
theorem restart_rezeroes_amended (s : Spinner) (b : Bar) (now : Int)
    (sv : V0.Spinner) (h : s.frames ≠ []) (hv : sv.doneChNil = false) :
    ((s.Stop).1.Start).frameIndex = 0 ∧
    ((s.Stop).1.Start).running = true ∧
    (((s.Stop).1.Start).tick).2
      = "\r" ++ s.prefixStr ++ String.singleton (s.frames.headD ' ') ++ s.suffixStr ∧
    ((b.Stop).1.Start now).1.lastProgress = 0 ∧
    ((sv.Stop).1.Start) = (sv.Stop).1 ∧
    (∀ sv2 : V0.Spinner, sv2.doneChNil = true →
      ((sv2.Start).tick).2
        = "\r" ++ String.singleton (sv2.frames.getD (1 % sv2.frames.length) ' ')) := by
  have hs : (s.Stop).1.Start = { s with running := true, frameIndex := 0 } := by
    rw [spinner_stop_state]
    simp [Spinner.Start]
  have hb : (b.Stop).1.stopped = true := by rw [bar_stop_state]
  refine ⟨by rw [hs], by rw [hs], ?_, ?_, ?_, ?_⟩
  · rw [hs]
    cases hf : s.frames with
    | nil => exact absurd hf h
    | cons hd tl => simp [Spinner.tick, hf]
  · simp [Bar.Start, hb]
  · simp [V0.Spinner.Stop, hv, V0.Spinner.Start]
  · intro sv2 hsv2
    simp [V0.Spinner.Start, hsv2, V0.Spinner.tick]

/-- Witness for the amended C5 on a concrete running spinner mid-sequence, a
concrete running bar with nonzero progress, and a concrete
earlier-implementation spinner after its first `Start`. -/
theorem restart_rezeroes_amended_witness :
    ((({ SpinnerNew FramesLines 100 "" "" with
          running := true, frameIndex := 7 } : Spinner).Stop).1.Start).frameIndex = 0 ∧
    (((barRunning.SetProgress (1/2) 0).1.Stop).1.Start 0).1.lastProgress = 0 ∧
    ((v0Started.Stop).1.Start) = (v0Started.Stop).1 :=
  ⟨(restart_rezeroes_amended { SpinnerNew FramesLines 100 "" "" with
      running := true, frameIndex := 7 } barRunning 0 v0Started
      (by decide) (by decide)).1,
   (restart_rezeroes_amended { SpinnerNew FramesLines 100 "" "" with
      running := true, frameIndex := 7 } (barRunning.SetProgress (1/2) 0).1 0
      v0Started (by decide) (by decide)).2.2.2.1,
   (restart_rezeroes_amended { SpinnerNew FramesLines 100 "" "" with
      running := true, frameIndex := 7 } barRunning 0 v0Started
      (by decide) (by decide)).2.2.2.2.1⟩

/-- Claim C6: `RunWithTimeout` yields the timeout error exactly when the timer
fires before the function completes, yields the function's own result
otherwise, the timeout error is never equal to a function-produced error,
and the spinner is stopped in both cases. -/
theorem runWithTimeout_outcome (s : Spinner) (fnErr : Option String)
    (fnTimeMs timeoutMs : Nat) :
    ((s.RunWithTimeout fnErr fnTimeMs timeoutMs).2
        = some (SpinError.timedOut timeoutMs) ↔ timeoutMs < fnTimeMs) ∧
    (fnTimeMs ≤ timeoutMs →
      (s.RunWithTimeout fnErr fnTimeMs timeoutMs).2 = fnErr.map SpinError.fromFn) ∧
    (∀ msg, SpinError.fromFn msg ≠ SpinError.timedOut timeoutMs) ∧
    (s.RunWithTimeout fnErr fnTimeMs timeoutMs).1.running = false := by
  refine ⟨?_, ?_, fun msg => by simp, ?_⟩
  · by_cases hle : fnTimeMs ≤ timeoutMs
    · simp only [Spinner.RunWithTimeout, if_pos hle]
      constructor
      · intro hmap
        cases fnErr with
        | none => simp at hmap
        | some m => simp at hmap
      · intro hlt; omega
    · simp only [Spinner.RunWithTimeout, if_neg hle]
      simp
      omega
  · intro hle
    simp [Spinner.RunWithTimeout, if_pos hle]
  · show ((s.Start).Stop).1.running = false
    rw [spinner_stop_state]

/-- Witness for C6: on a concrete spinner, a function finishing at 5ms with
error "boom" under a 10ms timeout surfaces "boom" itself. -/
theorem runWithTimeout_outcome_witness :
    ((SpinnerNew FramesLines 100 "" "").RunWithTimeout (some "boom") 5 10).2
      = (some "boom").map SpinError.fromFn :=
  (runWithTimeout_outcome (SpinnerNew FramesLines 100 "" "") (some "boom") 5 10).2.1
    (by decide)

/-- `Bar.SetProgress` never changes the lifecycle flags. -/
lemma setProgress_flags (b : Bar) (p : ℚ) (now : Int) :
    (b.SetProgress p now).1.started = b.started ∧
    (b.SetProgress p now).1.stopped = b.stopped := by
  unfold Bar.SetProgress
  split <;> simp

/-- The fold underlying `Bar.applyUpdates` never changes the lifecycle
flags. -/
lemma applyUpdates_foldl_flags (now : Int) (upds : List ℚ) (init : Bar × String) :
    (upds.foldl (fun (acc : Bar × String) p =>
        let r := acc.1.SetProgress p now
        (r.1, acc.2 ++ r.2)) init).1.started = init.1.started ∧
    (upds.foldl (fun (acc : Bar × String) p =>
        let r := acc.1.SetProgress p now
        (r.1, acc.2 ++ r.2)) init).1.stopped = init.1.stopped := by
  induction upds generalizing init with
  | nil => exact ⟨rfl, rfl⟩
  | cons hd tl ih =>
    simp only [List.foldl_cons]
    refine ⟨?_, ?_⟩
    · rw [(ih _).1]
      exact (setProgress_flags init.1 hd now).1
    · rw [(ih _).2]
      exact (setProgress_flags init.1 hd now).2

/-- `Bar.applyUpdates` never changes the lifecycle flags. -/
lemma applyUpdates_flags (b : Bar) (now : Int) (upds : List ℚ) :
    (b.applyUpdates now upds).1.started = b.started ∧
    (b.applyUpdates now upds).1.stopped = b.stopped :=
  applyUpdates_foldl_flags now upds (b, "")

/-- After `Bar.Start` the bar is started and not stopped. -/
lemma start_flags (b : Bar) (now : Int) :
    (b.Start now).1.started = true ∧ (b.Start now).1.stopped = false := by
  unfold Bar.Start
  split
  · rename_i hcond
    simp only [Bool.and_eq_true, Bool.not_eq_true'] at hcond
    exact ⟨hcond.1, hcond.2⟩
  · exact ⟨rfl, rfl⟩

/-- A string with `"\r"` appended is never empty. -/
lemma append_cr_ne_empty (x : String) : x ++ "\r" ≠ "" := by
  intro h
  have hlen := congrArg String.length h
  rw [String.length_append x "\r"] at hlen
  simp at hlen
  exact absurd hlen.2 (by decide)

/-- Claim C3, counterexample: in `src/progress/progress.go`, `Run` calls
`Stop` with no `wg.Wait()`, so the schedule in which the function's single
setter call lands after `Stop` is legal (`k = 0`): `Run`'s trace is then
the `Start` clear, the `Stop` clear-and-return, and only afterwards the
update's non-empty render — `Stop` was not after the function finished,
and the post-`Stop` render lands on the line the caller believes clear. -/
theorem run_v0_counterexample :
    ((V0.NewBar (some 11)).Run [1/2] 0).2
      = "\r          " ++ "\r          \r" ++ "\r#####     " ∧
    ((V0.NewBar (some 11)).Run [1/2] 0).1.lastPosition = 1/2 ∧
    ("\r#####     " : String) ≠ "" := by
  have h5 : ratTrunc (((10 : Int) : ℚ) * (1/2 : ℚ)) = 5 := by
    have hmul : ((10 : Int) : ℚ) * (1/2 : ℚ) = ((5 : ℤ) : ℚ) := by
      push_cast
      norm_num
    unfold ratTrunc
    rw [hmul, if_neg (by norm_num : ¬ (((5 : ℤ) : ℚ) < 0)), Int.floor_intCast]
  have hseq : ((V0.NewBar (some 11)).Run [1/2] 0).2
      = ((((V0.NewBar (some 11)).Start).2 ++ "")
          ++ (((V0.NewBar (some 11)).Start).1.Stop).2)
        ++ ("" ++ ((((V0.NewBar (some 11)).Start).1.Stop).1.SetProgress (1/2)).2) := rfl
  have hst : (((V0.NewBar (some 11)).Start).1.Stop).1.totalWidth = (10 : Int) := by
    decide
  have hs2 : ((V0.NewBar (some 11)).Start).2 = "\r          " := by decide
  have he2 : (((V0.NewBar (some 11)).Start).1.Stop).2 = "\r          \r" := by decide
  have hp2 : ((((V0.NewBar (some 11)).Start).1.Stop).1.SetProgress (1/2)).2
      = "\r#####     " := by
    simp only [V0.Bar.SetProgress]
    rw [hst, h5]
    decide
  refine ⟨?_, rfl, by decide⟩
  rw [hseq, hs2, he2, hp2]
  decide

/-- Every single `V0` render is at least one character long. -/
lemma v0_setProgress_out_len (b : V0.Bar) (p : ℚ) :
    1 ≤ (b.SetProgress p).2.length := by
  show 1 ≤ ("\r" ++ _ ++ _).length
  rw [String.length_append, String.length_append]
  have h1 : ("\r").length = 1 := by decide
  omega

/-- The fold underlying `V0.Bar.applyUpdates` never shortens the
accumulated output. -/
lemma v0_foldl_out_len (upds : List ℚ) (init : V0.Bar × String) :
    init.2.length ≤ (upds.foldl (fun (acc : V0.Bar × String) p =>
      let r := acc.1.SetProgress p
      (r.1, acc.2 ++ r.2)) init).2.length := by
  induction upds generalizing init with
  | nil => exact le_refl _
  | cons hd tl ih =>
    simp only [List.foldl_cons]
    refine le_trans ?_ (ih _)
    show init.2.length ≤ (init.2 ++ (init.1.SetProgress hd).2).length
    rw [String.length_append]
    omega

/-- A nonempty update list makes `V0.Bar.applyUpdates` write something. -/
lemma v0_applyUpdates_out_ne (b : V0.Bar) (hd : ℚ) (tl : List ℚ) :
    (b.applyUpdates (hd :: tl)).2 ≠ "" := by
  have hlen : 1 ≤ (b.applyUpdates (hd :: tl)).2.length := by
    unfold V0.Bar.applyUpdates
    rw [List.foldl_cons]
    refine le_trans ?_ (v0_foldl_out_len tl _)
    show 1 ≤ ("" ++ (b.SetProgress hd).2).length
    rw [String.length_append]
    have := v0_setProgress_out_len b hd
    omega
  intro hcontra
  rw [hcontra] at hlen
  exact absurd hlen (by decide)

/-- Claim C3 as amended: part_000's `Run` executes `Start`, applies all of
the function's setter calls, waits for the function, and only then calls
`Stop` — the output is `Start`'s, then the updates' in order, then
`Stop`'s; the state `Stop` acts on is still un-stopped, `Stop`'s teardown
really runs whatever the function did, and the final state is stopped.
`src/progress/progress.go`'s `Run` instead calls `Stop` with no wait: under
any schedule `k`, its trace is `Start`'s output, the first `k` setter
calls' output, `Stop`'s output, and then the remaining calls' renders —
which are non-empty whenever any call remains. -/
theorem run_wait_amended (b : Bar) (now : Int) (upds : List ℚ)
    (bg : V0.Bar) (updsGo : List ℚ) (k : Nat) :
    (b.Run now upds).1.stopped = true ∧
    (b.Run now upds).1.started = true ∧
    (b.Run now upds).2 =
      (b.Start now).2 ++ ((b.Start now).1.applyUpdates now upds).2
        ++ (((b.Start now).1.applyUpdates now upds).1.Stop).2 ∧
    ((b.Start now).1.applyUpdates now upds).1.stopped = false ∧
    (((b.Start now).1.applyUpdates now upds).1.Stop).2 ≠ "" ∧
    (bg.Run updsGo k).2 =
      (bg.Start).2 ++ ((bg.Start).1.applyUpdates (updsGo.take k)).2
        ++ ((((bg.Start).1.applyUpdates (updsGo.take k)).1.Stop).2)
        ++ (((((bg.Start).1.applyUpdates (updsGo.take k)).1.Stop).1.applyUpdates
              (updsGo.drop k)).2) ∧
    (updsGo.drop k ≠ [] →
      (((((bg.Start).1.applyUpdates (updsGo.take k)).1.Stop).1.applyUpdates
          (updsGo.drop k)).2) ≠ "") := by
  have hmid : ((b.Start now).1.applyUpdates now upds).1.stopped = false := by
    rw [(applyUpdates_flags _ now upds).2]
    exact (start_flags b now).2
  have hmids : ((b.Start now).1.applyUpdates now upds).1.started = true := by
    rw [(applyUpdates_flags _ now upds).1]
    exact (start_flags b now).1
  refine ⟨?_, ?_, rfl, hmid, ?_, rfl, ?_⟩
  · show (((b.Start now).1.applyUpdates now upds).1.Stop).1.stopped = true
    rw [bar_stop_state]
  · show (((b.Start now).1.applyUpdates now upds).1.Stop).1.started = true
    rw [bar_stop_state]
    exact hmids
  · rw [show (((b.Start now).1.applyUpdates now upds).1.Stop).2
        = ((b.Start now).1.applyUpdates now upds).1.clearLine ++ "\r" by
      simp [Bar.Stop, hmid]]
    exact append_cr_ne_empty _
  · intro hdrop
    obtain ⟨hd, tl, heq⟩ := List.exists_cons_of_ne_nil hdrop
    rw [heq]
    exact v0_applyUpdates_out_ne _ hd tl

/-- Witness for the amended C3: part_000's `Run` with no updates still
stops the bar, and the earlier implementation's `Run` with one update under
the all-after-`Stop` schedule emits a non-empty render after `Stop`'s. -/
theorem run_wait_amended_witness :
    (barIdle.Run 0 []).1.stopped = true ∧
    (((((V0.NewBar (some 11)).Start).1.applyUpdates (([1/2] : List ℚ).take 0)).1.Stop).1.applyUpdates
        (([1/2] : List ℚ).drop 0)).2 ≠ "" :=
  ⟨(run_wait_amended barIdle 0 [] (V0.NewBar (some 11)) [1/2] 0).1,
   (run_wait_amended barIdle 0 [] (V0.NewBar (some 11)) [1/2] 0).2.2.2.2.2.2
     (by decide)⟩

/-- Looking up a key right after a map assignment returns the assigned
value, whether or not the key was present before. -/
lemma mapFind_insert {β : Type} (l : List (String × β)) (name : String) (v : β) :
    mapFind (mapInsert l name v) name = some v := by
  unfold mapInsert
  by_cases hp : l.any (fun kv => kv.1 == name) = true
  · rw [if_pos hp]
    induction l with
    | nil => simp at hp
    | cons hd tl ih =>
      by_cases hk : (hd.1 == name) = true
      · simp [mapFind, List.find?, hk]
      · simp only [List.any_cons, Bool.or_eq_true] at hp
        rcases hp with hp | hp
        · exact absurd hp hk
        · simp only [List.map_cons, if_neg hk]
          unfold mapFind
          rw [List.find?]
          simp only [hk]
          exact ih hp
  · rw [if_neg hp]
    have hnone : l.find? (fun kv => kv.1 == name) = none := by
      rw [List.find?_eq_none]
      intro x hx hpx
      exact hp (List.any_eq_true.mpr ⟨x, hx, hpx⟩)
    unfold mapFind
    rw [List.find?_append, hnone]
    simp [List.find?]

/-- Assigning to a key already present leaves the map's size unchanged. -/
lemma mapInsert_length_present {β : Type} (l : List (String × β)) (name : String)
    (v : β) (h : l.any (fun kv => kv.1 == name) = true) :
    (mapInsert l name v).length = l.length := by
  simp [mapInsert, h]

/-- Assigning to an absent key grows the map's size by one. -/
lemma mapInsert_length_absent {β : Type} (l : List (String × β)) (name : String)
    (v : β) (h : l.any (fun kv => kv.1 == name) = false) :
    (mapInsert l name v).length = l.length + 1 := by
  simp [mapInsert, h]

/-- Presence under `mapFind` coincides with the `any` test `mapInsert`
branches on. -/
lemma mapFind_isSome {β : Type} (l : List (String × β)) (name : String) :
    (mapFind l name).isSome = l.any (fun kv => kv.1 == name) := by
  unfold mapFind
  rw [Option.isSome_map']
  induction l with
  | nil => rfl
  | cons hd tl ih =>
    rw [List.find?, List.any_cons]
    by_cases hk : (hd.1 == name) = true
    · simp [hk]
    · simp only [Bool.not_eq_true] at hk
      simp [hk, ih]

/-- Claim C10: `Add` with an existing name overwrites: the registry afterwards
maps the name to the freshly constructed indicator (the old entry is gone,
since the name still maps to exactly this entry), the new entry's `line` is
the registry size read at insertion, the size is unchanged by an overwrite
(and grows by one otherwise) — so, as the closing concrete registry shows,
lines can repeat across entries after an overwrite.  Holds for `MultiBar`
and `MultiSpinner` alike. -/
theorem registry_add_overwrites (mb : MultiBar) (ms : MultiSpinner)
    (name label : String) (cfg : BarConfig) (tw : Option Int)
    (frames : List Char) (dur : Nat) (sfx : String) :
    (mb.Add name label cfg tw).find name =
      some { bar := NewBarWithConfig cfg tw, label := label,
             line := mb.bars.length } ∧
    ((mb.find name).isSome = true →
      (mb.Add name label cfg tw).bars.length = mb.bars.length) ∧
    ((mb.find name).isSome = false →
      (mb.Add name label cfg tw).bars.length = mb.bars.length + 1) ∧
    (ms.Add name label frames dur sfx).find name =
      some { spinner := SpinnerNew frames dur (label ++ " ") sfx, label := label,
             line := ms.spinners.length } ∧
    ((ms.find name).isSome = true →
      (ms.Add name label frames dur sfx).spinners.length = ms.spinners.length) ∧
    ((((NewMultiBar.Add "a" "A" cfgPlain none).Add "a" "A2" cfgPlain none).Add
        "c" "C" cfgPlain none).find "a").map (fun e => e.line) = some 1 ∧
    ((((NewMultiBar.Add "a" "A" cfgPlain none).Add "a" "A2" cfgPlain none).Add
        "c" "C" cfgPlain none).find "c").map (fun e => e.line) = some 1 := by
  refine ⟨mapFind_insert mb.bars name _, ?_, ?_,
    mapFind_insert ms.spinners name _, ?_, by decide, by decide⟩
  · intro h
    unfold MultiBar.find at h
    rw [mapFind_isSome] at h
    exact mapInsert_length_present mb.bars name _ h
  · intro h
    unfold MultiBar.find at h
    rw [mapFind_isSome] at h
    exact mapInsert_length_absent mb.bars name _ h
  · intro h
    unfold MultiSpinner.find at h
    rw [mapFind_isSome] at h
    exact mapInsert_length_present ms.spinners name _ h

/-- Witness for C10: overwriting the single entry of a concrete one-entry
registry keeps its size at one. -/
theorem registry_add_overwrites_witness :
    ((NewMultiBar.Add "a" "A" cfgPlain none).Add "a" "A2" cfgPlain none).bars.length
      = (NewMultiBar.Add "a" "A" cfgPlain none).bars.length :=
  (registry_add_overwrites (NewMultiBar.Add "a" "A" cfgPlain none) NewMultiSpinner
    "a" "A2" cfgPlain none FramesLines 100 "").2.1 (by decide)

/-- On a running bar with a 10-cell track, `"#"` / `" "` characters and no
suffix fields, `SetProgress p` writes a carriage return followed by
`⌊10 * clamp p⌋` filled characters and the remaining empty characters. -/
lemma setProgress_track (b : Bar) (p : ℚ) (now : Int)
    (hs : b.started = true) (hn : b.stopped = false)
    (hw : b.totalWidth = 10) (hf : b.config.FilledChar = "#")
    (he : b.config.EmptyChar = " ") (hpc : b.config.ShowPercent = false)
    (heta : b.config.ShowETA = false) :
    (b.SetProgress p now).2 =
      "\r" ++ repeatStr "#" (⌊(10 : ℚ) * max 0 (min 1 p)⌋).toNat
        ++ repeatStr " " (10 - (⌊(10 : ℚ) * max 0 (min 1 p)⌋).toNat) := by
  have hc0 : (0 : ℚ) ≤ max 0 (min 1 p) := le_max_left _ _
  have ht : ratTrunc ((10 : ℚ) * max 0 (min 1 p)) = ⌊(10 : ℚ) * max 0 (min 1 p)⌋ := by
    unfold ratTrunc
    rw [if_neg (not_lt.mpr (mul_nonneg (by norm_num) hc0))]
  have hk0 : (0 : Int) ≤ ⌊(10 : ℚ) * max 0 (min 1 p)⌋ :=
    Int.floor_nonneg.mpr (mul_nonneg (by norm_num) hc0)
  have hk10 : ⌊(10 : ℚ) * max 0 (min 1 p)⌋ ≤ 10 := by
    have h1 : (10 : ℚ) * max 0 (min 1 p) ≤ 10 := by
      nlinarith [max_le zero_le_one (min_le_left 1 p)]
    calc ⌊(10 : ℚ) * max 0 (min 1 p)⌋ ≤ ⌊(10 : ℚ)⌋ := Int.floor_le_floor h1
    _ = 10 := by norm_num
  have hsub : ((10 : Int) - ⌊(10 : ℚ) * max 0 (min 1 p)⌋).toNat
      = 10 - (⌊(10 : ℚ) * max 0 (min 1 p)⌋).toNat := by omega
  have hcast : (((10 : Int) : ℚ)) = (10 : ℚ) := by norm_num
  simp only [Bar.SetProgress, hs, hn, Bool.not_true, Bool.or_false, Bool.false_eq_true,
    if_false, hw, hf, he, hpc, heta, hcast, ht, hsub]
  rw [String.append_empty, String.append_empty]

/-- Claim C8: on the started fixed-width-10 bar with `filledChar "#"` and
`emptyChar " "`, `SetProgress p` renders a carriage return and a track of
exactly `⌊10 * clamp p⌋` filled cells then the remaining empty cells;
concretely `0.5` renders `"#####     "`, `1.0` renders `"##########"`, and
`1.5` renders identically to `1.0`. -/
theorem bar_render_scenario (p : ℚ) (now : Int) :
    (barRunning.SetProgress p now).2 =
      "\r" ++ repeatStr "#" (⌊(10 : ℚ) * max 0 (min 1 p)⌋).toNat
        ++ repeatStr " " (10 - (⌊(10 : ℚ) * max 0 (min 1 p)⌋).toNat) ∧
    (barRunning.SetProgress (1/2) 0).2 = "\r" ++ "#####     " ∧
    (barRunning.SetProgress 1 0).2 = "\r" ++ "##########" ∧
    (barRunning.SetProgress (3/2) 0).2 = (barRunning.SetProgress 1 0).2 := by
  have hc12 : max 0 (min 1 ((1 : ℚ)/2)) = 1/2 := by
    rw [min_eq_right (by norm_num), max_eq_right (by norm_num)]
  have hc1 : max 0 (min 1 (1 : ℚ)) = 1 := by
    rw [min_eq_right le_rfl, max_eq_right (by norm_num)]
  have hc32 : max 0 (min 1 ((3 : ℚ)/2)) = 1 := by
    rw [min_eq_left (by norm_num), max_eq_right (by norm_num)]
  have hf5 : ⌊(10 : ℚ) * ((1 : ℚ)/2)⌋ = 5 := by
    rw [show (10 : ℚ) * ((1 : ℚ)/2) = ((5 : ℤ) : ℚ) by norm_num, Int.floor_intCast]
  have hf10 : ⌊(10 : ℚ) * (1 : ℚ)⌋ = 10 := by
    rw [show (10 : ℚ) * (1 : ℚ) = ((10 : ℤ) : ℚ) by norm_num, Int.floor_intCast]
  have hgen : ∀ q : ℚ, (barRunning.SetProgress q 0).2 =
      "\r" ++ repeatStr "#" (⌊(10 : ℚ) * max 0 (min 1 q)⌋).toNat
        ++ repeatStr " " (10 - (⌊(10 : ℚ) * max 0 (min 1 q)⌋).toNat) := fun q =>
    setProgress_track barRunning q 0 (by decide) (by decide) (by decide)
      (by decide) (by decide) (by decide) (by decide)
  refine ⟨setProgress_track barRunning p now (by decide) (by decide) (by decide)
    (by decide) (by decide) (by decide) (by decide), ?_, ?_, ?_⟩
  · rw [hgen (1/2), hc12, hf5]
    decide
  · rw [hgen 1, hc1, hf10]
    decide
  · rw [hgen (3/2), hgen 1, hc32, hc1]

end Termui
